import Mathlib

/-!
Verification of the M3U-Copier playlist tool (src/m3ucopy.py).

The development shallowly embeds the two components of the program:
the playlist reader (extract_mp3_files) and the track copier
(copy_mp3_files), together with the pieces of the Python standard
library the program relies on (str.strip, urllib.parse.unquote,
os.path.join / splitext / dirname, text decoding under the candidate
encodings).  Strings are Lean strings; machine-level file contents are
byte lists (List Nat, each entry < 256).  Filesystem effects are an
explicit record of oracles (existence, copy outcome, mkdir outcome).
-/

namespace M3UCopy

/-- Model of Python str.isspace / the character set stripped by
str.strip(): ASCII whitespace, the C1 separators, and the Unicode
space characters. -/
def pyIsSpace (c : Char) : Bool :=
  let n := c.toNat
  decide ((0x09 ≤ n ∧ n ≤ 0x0D) ∨ n = 0x20 ∨ (0x1C ≤ n ∧ n ≤ 0x1F) ∨
    n = 0x85 ∨ n = 0xA0 ∨ n = 0x1680 ∨ (0x2000 ≤ n ∧ n ≤ 0x200A) ∨
    n = 0x2028 ∨ n = 0x2029 ∨ n = 0x202F ∨ n = 0x205F ∨ n = 0x3000)

/-- Model of Python str.strip(): drop leading and trailing whitespace. -/
def pystrip (s : String) : String :=
  String.mk (((s.data.dropWhile pyIsSpace).reverse.dropWhile pyIsSpace).reverse)

/-- Boolean list-prefix test (used to model str.startswith / endswith). -/
def isPrefixList : List Char → List Char → Bool
  | [], _ => true
  | _ :: _, [] => false
  | p :: ps, c :: cs => p = c && isPrefixList ps cs

/-- Model of Python str.startswith. -/
def pyStartsWith (s pat : String) : Bool :=
  isPrefixList pat.data s.data

/-- Model of Python str.endswith. -/
def pyEndsWith (s pat : String) : Bool :=
  isPrefixList pat.data.reverse s.data.reverse

theorem isPrefixList_iff (p l : List Char) :
    isPrefixList p l = true ↔ ∃ suf, l = p ++ suf := by
  induction p generalizing l with
  | nil => simp [isPrefixList]
  | cons a as ih =>
    cases l with
    | nil => simp [isPrefixList]
    | cons b bs =>
      simp only [isPrefixList, Bool.and_eq_true, decide_eq_true_eq, ih,
        List.cons_append, List.cons.injEq]
      constructor
      · rintro ⟨rfl, suf, rfl⟩; exact ⟨suf, rfl, rfl⟩
      · rintro ⟨suf, rfl, rfl⟩; exact ⟨rfl, suf, rfl⟩

/-- Hexadecimal digit value, both cases, as accepted by urllib.parse
(the _hextobyte table is built from 0-9, A-F and a-f). -/
def hexVal (c : Char) : Option Nat :=
  if '0' ≤ c ∧ c ≤ '9' then some (c.toNat - 48)
  else if 'A' ≤ c ∧ c ≤ 'F' then some (c.toNat - 55)
  else if 'a' ≤ c ∧ c ≤ 'f' then some (c.toNat - 87)
  else none

/-- The Unicode replacement character U+FFFD produced by the
errors=replace policy of str.decode. -/
def repChar : Char := Char.ofNat 0xFFFD

/-- Is the byte a UTF-8 continuation byte (0x80-0xBF)? -/
def isCont (b : Nat) : Bool := decide (0x80 ≤ b ∧ b ≤ 0xBF)

/-- Admissible first continuation byte of a three-byte UTF-8 sequence
headed by b (0xE0 excludes overlong forms, 0xED excludes surrogates). -/
def cont1ok3 (b c : Nat) : Bool :=
  if b = 0xE0 then decide (0xA0 ≤ c ∧ c ≤ 0xBF)
  else if b = 0xED then decide (0x80 ≤ c ∧ c ≤ 0x9F)
  else isCont c

/-- Admissible first continuation byte of a four-byte UTF-8 sequence
headed by b (0xF0 excludes overlong forms, 0xF4 caps at U+10FFFF). -/
def cont1ok4 (b c : Nat) : Bool :=
  if b = 0xF0 then decide (0x90 ≤ c ∧ c ≤ 0xBF)
  else if b = 0xF4 then decide (0x80 ≤ c ∧ c ≤ 0x8F)
  else isCont c

/-- UTF-8 decoding with the errors=replace policy of CPython: each
maximal subsequence that is a (possibly truncated) prefix of a valid
sequence but cannot be completed is replaced by one U+FFFD, and
decoding resumes at the offending byte. -/
def utf8Replace : List Nat → List Char
  | [] => []
  | b :: rest =>
    if b < 0x80 then Char.ofNat b :: utf8Replace rest
    else if b < 0xC2 then repChar :: utf8Replace rest
    else if b ≤ 0xDF then
      match rest with
      | [] => [repChar]
      | c1 :: rest1 =>
        if isCont c1 then
          Char.ofNat ((b - 0xC0) * 0x40 + (c1 - 0x80)) :: utf8Replace rest1
        else repChar :: utf8Replace (c1 :: rest1)
    else if b ≤ 0xEF then
      match rest with
      | [] => [repChar]
      | c1 :: rest1 =>
        if cont1ok3 b c1 then
          match rest1 with
          | [] => [repChar]
          | c2 :: rest2 =>
            if isCont c2 then
              Char.ofNat ((b - 0xE0) * 0x1000 + (c1 - 0x80) * 0x40 + (c2 - 0x80)) ::
                utf8Replace rest2
            else repChar :: utf8Replace (c2 :: rest2)
        else repChar :: utf8Replace (c1 :: rest1)
    else if b ≤ 0xF4 then
      match rest with
      | [] => [repChar]
      | c1 :: rest1 =>
        if cont1ok4 b c1 then
          match rest1 with
          | [] => [repChar]
          | c2 :: rest2 =>
            if isCont c2 then
              match rest2 with
              | [] => [repChar]
              | c3 :: rest3 =>
                if isCont c3 then
                  Char.ofNat ((b - 0xF0) * 0x40000 + (c1 - 0x80) * 0x1000 +
                      (c2 - 0x80) * 0x40 + (c3 - 0x80)) :: utf8Replace rest3
                else repChar :: utf8Replace (c3 :: rest3)
            else repChar :: utf8Replace (c2 :: rest2)
        else repChar :: utf8Replace (c1 :: rest1)
    else repChar :: utf8Replace rest

/-- One scan step of urllib.parse.unquote: a percent sign followed by
two hexadecimal digits becomes an escaped byte (Sum.inr); every other
character, including a percent sign not opening a valid escape, passes
through as a literal (Sum.inl). -/
def unquoteTokens : List Char → List (Char ⊕ Nat)
  | [] => []
  | c :: c1 :: c2 :: rest2 =>
    if c = '%' then
      match hexVal c1, hexVal c2 with
      | some a, some b => Sum.inr (16 * a + b) :: unquoteTokens rest2
      | _, _ => Sum.inl c :: unquoteTokens (c1 :: c2 :: rest2)
    else Sum.inl c :: unquoteTokens (c1 :: c2 :: rest2)
  | c :: rest => Sum.inl c :: unquoteTokens rest

/-- Does the string contain a percent escape (percent sign followed by
two hex digits) anywhere?  Mirrors the scan of unquoteTokens. -/
def hasEscape : List Char → Bool
  | [] => false
  | c :: c1 :: c2 :: rest2 =>
    if c = '%' then
      ((hexVal c1).isSome && (hexVal c2).isSome) || hasEscape (c1 :: c2 :: rest2)
    else hasEscape (c1 :: c2 :: rest2)
  | _ :: rest => hasEscape rest

/-- Render the token stream: literals pass through, each maximal run of
escaped bytes is decoded as UTF-8 with errors=replace (as
unquote_to_bytes followed by bytes.decode does in urllib.parse.unquote;
a literal character never extends an escaped byte run since literal
ASCII is never a continuation byte and non-ASCII literals are outside
the byte stream).  The first argument accumulates the current byte run
in reverse. -/
def detok : List Nat → List (Char ⊕ Nat) → List Char
  | buf, [] => utf8Replace buf.reverse
  | buf, Sum.inr b :: rest => detok (b :: buf) rest
  | buf, Sum.inl c :: rest => utf8Replace buf.reverse ++ c :: detok [] rest

/-- Model of urllib.parse.unquote with its default encoding=utf-8,
errors=replace arguments, including the early return when the string
contains no percent sign. -/
def unquote (s : String) : String :=
  if s.data.contains '%' then String.mk (detok [] (unquoteTokens s.data))
  else s

/-- The pending metadata built from an EXTINF line: the dict
stored in current_extinf.  The duration is kept as the matched digit
string, exactly as the Python code stores the regex group. -/
structure Extinf where
  duration : Option String
  title : String
  deriving Repr, DecidableEq

/-- A parsed track record: the track_info dict appended to tracks. -/
structure Track where
  encoded_filename : String
  decoded_filename : String
  info : Option Extinf
  deriving Repr, DecidableEq

/-- The mutable state of the parsing loop in extract_mp3_files:
the accumulated tracks list and the pending current_extinf.  Both are
initialized once, before the encoding loop. -/
structure ParseState where
  tracks : List Track
  current_extinf : Option Extinf
  deriving Repr, DecidableEq

/-- The code point ranges of Unicode general category Nd (decimal
digit), Unicode 15.0: the character class matched by the digit escape
of re on str patterns (the default Unicode matching of CPython). -/
def ndRanges : List (Nat × Nat) :=
  [(0x30, 0x39), (0x660, 0x669), (0x6F0, 0x6F9), (0x7C0, 0x7C9),
   (0x966, 0x96F), (0x9E6, 0x9EF), (0xA66, 0xA6F), (0xAE6, 0xAEF),
   (0xB66, 0xB6F), (0xBE6, 0xBEF), (0xC66, 0xC6F), (0xCE6, 0xCEF),
   (0xD66, 0xD6F), (0xDE6, 0xDEF), (0xE50, 0xE59), (0xED0, 0xED9),
   (0xF20, 0xF29), (0x1040, 0x1049), (0x1090, 0x1099), (0x17E0, 0x17E9),
   (0x1810, 0x1819), (0x1946, 0x194F), (0x19D0, 0x19D9), (0x1A80, 0x1A89),
   (0x1A90, 0x1A99), (0x1B50, 0x1B59), (0x1BB0, 0x1BB9), (0x1C40, 0x1C49),
   (0x1C50, 0x1C59), (0xA620, 0xA629), (0xA8D0, 0xA8D9), (0xA900, 0xA909),
   (0xA9D0, 0xA9D9), (0xA9F0, 0xA9F9), (0xAA50, 0xAA59), (0xABF0, 0xABF9),
   (0xFF10, 0xFF19), (0x104A0, 0x104A9), (0x10D30, 0x10D39),
   (0x11066, 0x1106F), (0x110F0, 0x110F9), (0x11136, 0x1113F),
   (0x111D0, 0x111D9), (0x112F0, 0x112F9), (0x11450, 0x11459),
   (0x114D0, 0x114D9), (0x11650, 0x11659), (0x116C0, 0x116C9),
   (0x11730, 0x11739), (0x118E0, 0x118E9), (0x11950, 0x11959),
   (0x11C50, 0x11C59), (0x11D50, 0x11D59), (0x11DA0, 0x11DA9),
   (0x11F50, 0x11F59), (0x16A60, 0x16A69), (0x16AC0, 0x16AC9),
   (0x16B50, 0x16B59), (0x1D7CE, 0x1D7FF), (0x1E140, 0x1E149),
   (0x1E2F0, 0x1E2F9), (0x1E4F0, 0x1E4F9), (0x1E950, 0x1E959),
   (0x1FBF0, 0x1FBF9)]

/-- Is the character a Unicode decimal digit (category Nd)?  This is
the set matched by the digit class of re on str patterns; it properly
contains the ASCII digits. -/
def isUniDigit (c : Char) : Bool :=
  ndRanges.any fun r => decide (r.1 ≤ c.toNat ∧ c.toNat ≤ r.2)

/-- Model of re.match applied to the pattern
EXTINF-colon, one group of one or more digits, a comma, and a group of
one or more remaining characters, given the text after the colon.
A digit is any Unicode Nd character (CPython matches str patterns with
Unicode semantics).  The digit group is the maximal leading digit run
(backtracking cannot shorten it, since the following character must be
a comma and a comma is not a digit), and the title group is everything
after that comma, which must be non-empty. -/
def matchDurTitle (rest : List Char) : Option (String × String) :=
  let ds := rest.takeWhile isUniDigit
  if ds.isEmpty then none
  else
    match rest.dropWhile isUniDigit with
    | ',' :: t => if t.isEmpty then none else some (String.mk ds, String.mk t)
    | _ => none

/-- Parsing of one EXTINF line (a line already known to start with the
EXTINF prefix): on a regex match the duration and title groups are
stored, otherwise everything after the first eight characters of the
line becomes the title and no duration is stored. -/
def parseExtinf (line : String) : Extinf :=
  match matchDurTitle (line.data.drop 8) with
  | some (ds, t) => { duration := some ds, title := t }
  | none => { duration := none, title := String.mk (line.data.drop 8) }

/-- One iteration of the line loop of extract_mp3_files: strip the
line, skip empty lines and the EXTM3U header, store EXTINF metadata as
the pending current_extinf, turn a line ending in .mp3 or .wav into a
track record consuming the pending metadata, and ignore anything
else. -/
def processLine (st : ParseState) (rawLine : String) : ParseState :=
  let line := pystrip rawLine
  if line = "" ∨ line = "#EXTM3U" then st
  else if pyStartsWith line "#EXTINF:" then
    { st with current_extinf := some (parseExtinf line) }
  else if pyEndsWith line ".mp3" ∨ pyEndsWith line ".wav" then
    { tracks := st.tracks ++
        [{ encoded_filename := line,
           decoded_filename := unquote line,
           info := st.current_extinf }],
      current_extinf := none }
  else st

/-- The line loop of extract_mp3_files over one sequence of decoded
lines, threading the parse state. -/
def runLines (st : ParseState) (lines : List String) : ParseState :=
  lines.foldl processLine st

/-- Outcome of one attempt of the encoding loop.  ok carries the fully
decoded lines; failAfter models an attempt that raised
(UnicodeDecodeError mid-file, or any other exception caught by the
generic handler) after the text stream had already yielded the given
prefix of lines — Python text files decode chunk by chunk, so lines of
chunks before the failing one are surfaced before the error. -/
inductive AttemptOutcome where
  | ok (lines : List String)
  | failAfter (lines : List String)
  deriving Repr, DecidableEq

/-- The encoding loop of extract_mp3_files.  The parse state persists
across attempts (tracks and current_extinf are initialized outside the
loop in the source), a successful attempt returns the accumulated
tracks, and exhausting the attempts raises the terminal error
(modelled as none). -/
def extractGo : ParseState → List AttemptOutcome → Option (List Track)
  | _, [] => none
  | st, .ok ls :: _ => some (runLines st ls).tracks
  | st, .failAfter ls :: rest => extractGo (runLines st ls) rest

/-- Model of extract_mp3_files as a function of the per-encoding
attempt outcomes: tracks start empty, current_extinf starts empty, and
the encodings are tried in order. -/
def extract_mp3_files (attempts : List AttemptOutcome) : Option (List Track) :=
  extractGo { tracks := [], current_extinf := none } attempts

/-- Strict UTF-8 decoding of a byte sequence: the whole input must be
well formed (no overlong forms, no surrogates, at most U+10FFFF),
otherwise decoding fails, as open(..., encoding=utf-8) does. -/
def utf8DecodeStrict : List Nat → Option (List Char)
  | [] => some []
  | b :: rest =>
    if b < 0x80 then (utf8DecodeStrict rest).map (Char.ofNat b :: ·)
    else if b < 0xC2 then none
    else if b ≤ 0xDF then
      match rest with
      | c1 :: rest1 =>
        if isCont c1 then
          (utf8DecodeStrict rest1).map (Char.ofNat ((b - 0xC0) * 0x40 + (c1 - 0x80)) :: ·)
        else none
      | _ => none
    else if b ≤ 0xEF then
      match rest with
      | c1 :: c2 :: rest2 =>
        if cont1ok3 b c1 && isCont c2 then
          (utf8DecodeStrict rest2).map
            (Char.ofNat ((b - 0xE0) * 0x1000 + (c1 - 0x80) * 0x40 + (c2 - 0x80)) :: ·)
        else none
      | _ => none
    else if b ≤ 0xF4 then
      match rest with
      | c1 :: c2 :: c3 :: rest3 =>
        if cont1ok4 b c1 && isCont c2 && isCont c3 then
          (utf8DecodeStrict rest3).map
            (Char.ofNat ((b - 0xF0) * 0x40000 + (c1 - 0x80) * 0x1000 +
                (c2 - 0x80) * 0x40 + (c3 - 0x80)) :: ·)
        else none
      | _ => none
    else none

/-- The code point assigned to one byte by the Windows-1252 code page;
the five unassigned bytes 0x81, 0x8D, 0x8F, 0x90 and 0x9D make strict
decoding fail. -/
def cp1252Byte (b : Nat) : Option Nat :=
  if b < 0x80 ∨ 0xA0 ≤ b then some b
  else if b = 0x80 then some 0x20AC
  else if b = 0x82 then some 0x201A
  else if b = 0x83 then some 0x0192
  else if b = 0x84 then some 0x201E
  else if b = 0x85 then some 0x2026
  else if b = 0x86 then some 0x2020
  else if b = 0x87 then some 0x2021
  else if b = 0x88 then some 0x02C6
  else if b = 0x89 then some 0x2030
  else if b = 0x8A then some 0x0160
  else if b = 0x8B then some 0x2039
  else if b = 0x8C then some 0x0152
  else if b = 0x8E then some 0x017D
  else if b = 0x91 then some 0x2018
  else if b = 0x92 then some 0x2019
  else if b = 0x93 then some 0x201C
  else if b = 0x94 then some 0x201D
  else if b = 0x95 then some 0x2022
  else if b = 0x96 then some 0x2013
  else if b = 0x97 then some 0x2014
  else if b = 0x98 then some 0x02DC
  else if b = 0x99 then some 0x2122
  else if b = 0x9A then some 0x0161
  else if b = 0x9B then some 0x203A
  else if b = 0x9C then some 0x0153
  else if b = 0x9E then some 0x017E
  else if b = 0x9F then some 0x0178
  else none

/-- Strict Windows-1252 / cp1252 decoding of a byte sequence. -/
def cp1252Decode (bytes : List Nat) : Option (List Char) :=
  bytes.mapM (fun b => (cp1252Byte b).map Char.ofNat)

/-- Latin-1 / ISO-8859-1 decoding: every byte decodes to the code point
of the same value, so this decoder never fails. -/
def latin1Decode (bytes : List Nat) : List Char :=
  bytes.map Char.ofNat

/-- Strict ASCII decoding: fails on any byte at or above 0x80. -/
def asciiDecode (bytes : List Nat) : Option (List Char) :=
  bytes.mapM (fun b => if b < 0x80 then some (Char.ofNat b) else none)

/-- The fixed candidate encoding list of extract_mp3_files, in source
order (Windows-1252 and cp1252 name the same code page; latin1 and
iso-8859-1 name the same single-byte identity map). -/
def encodings : List String :=
  ["utf-8", "Windows-1252", "latin1", "cp1252", "iso-8859-1", "ascii"]

/-- Full decoding of the file bytes under one candidate encoding name:
some text if the whole file decodes, none if a UnicodeDecodeError is
raised somewhere. -/
def decodeFull (enc : String) (bytes : List Nat) : Option (List Char) :=
  if enc = "utf-8" then utf8DecodeStrict bytes
  else if enc = "Windows-1252" ∨ enc = "cp1252" then cp1252Decode bytes
  else if enc = "latin1" ∨ enc = "iso-8859-1" then some (latin1Decode bytes)
  else if enc = "ascii" then asciiDecode bytes
  else none

/-- Split decoded text into the lines yielded by iterating over a text
file in universal-newlines mode: CR LF, lone CR and lone LF all
terminate a line.  The accumulator holds the current line in
reverse. -/
def splitNLAux : List Char → List Char → List String
  | acc, [] => [String.mk acc.reverse]
  | acc, '\r' :: '\n' :: rest => String.mk acc.reverse :: splitNLAux [] rest
  | acc, '\r' :: rest => String.mk acc.reverse :: splitNLAux [] rest
  | acc, '\n' :: rest => String.mk acc.reverse :: splitNLAux [] rest
  | acc, c :: rest => splitNLAux (c :: acc) rest

/-- Line splitting of a decoded file (a trailing empty line is skipped
by the parser, so it is harmless in the model). -/
def splitNL (text : List Char) : List String :=
  splitNLAux [] text

/-- The attempt outcome of one candidate encoding on the file bytes.
When decoding fails partway, the prefix of lines that the chunked text
stream had already surfaced before the error depends on I/O chunk
boundaries, so it is supplied by the abstract yields oracle. -/
def attemptFor (bytes : List Nat) (yields : String → List String)
    (enc : String) : AttemptOutcome :=
  match decodeFull enc bytes with
  | some cs => .ok (splitNL cs)
  | none => .failAfter (yields enc)

/-- The whole playlist reader: if the file is unreadable at the OS
level (none), every attempt raises before yielding any line and is
caught by the generic handler; otherwise each candidate encoding is
tried on the file bytes in order. -/
def readPlaylist (file : Option (List Nat))
    (yields : String → List String) : Option (List Track) :=
  match file with
  | some bytes => extract_mp3_files (encodings.map (attemptFor bytes yields))
  | none => extract_mp3_files (encodings.map (fun _ => .failAfter []))

/-- Filesystem oracles for the copy phase: whether a path exists
(os.path.exists, which returns a boolean and never raises), whether
copying a given source to a given destination raises and with which
message (shutil.copy2), and whether creating a directory raises
(os.makedirs with exist_ok). -/
structure FS where
  pathExists : String → Bool
  copyError : String → String → Option String
  mkdirError : String → Option String

/-- Per-track outcome of the copy loop, as the spec's explicit result
type: the copy succeeded, the source path did not exist, or the copy
raised with the given message. -/
inductive Outcome where
  | success
  | notFound
  | error (msg : String)
  deriving Repr, DecidableEq

/-- One CopyResult: the raw reference of the track and its outcome. -/
structure CopyResult where
  reference : String
  outcome : Outcome
  deriving Repr, DecidableEq

/-- The last index of a character in a character list, if any. -/
def lastIndexOf : List Char → Char → Option Nat
  | [], _ => none
  | x :: xs, c =>
    match lastIndexOf xs c with
    | some i => some (i + 1)
    | none => if x = c then some 0 else none

/-- Model of os.path.splitext on POSIX: split at the last dot that
comes after the last separator, unless every character of the base
name up to that dot is itself a dot (leading dots do not start an
extension). -/
def splitext (p : String) : String × String :=
  let l := p.data
  let dotIndex := lastIndexOf l '.'
  let sepIndex := lastIndexOf l '/'
  match dotIndex with
  | none => (p, "")
  | some di =>
    let fStart := match sepIndex with
      | some si => si + 1
      | none => 0
    if ¬ ((l.drop fStart).take (di - fStart)).all (· = '.')
    then (String.mk (l.take di), String.mk (l.drop di))
    else (p, "")

/-- Model of os.path.join on POSIX for two components: an absolute
second component replaces the first, otherwise a separator is inserted
unless the first component is empty or already ends in one. -/
def joinPath (a b : String) : String :=
  if pyStartsWith b "/" then b
  else if a = "" ∨ pyEndsWith a "/" then a ++ b
  else a ++ "/" ++ b

/-- The numeric prefix of the copy loop, index formatted with a
minimum width of three digits and zero padding (an index of four or
more digits is not padded and simply grows). -/
def pad3 (n : Nat) : String :=
  if n < 10 then "00" ++ Nat.repr n
  else if n < 100 then "0" ++ Nat.repr n
  else Nat.repr n

/-- The track title read in the copy loop: the title of the track info
if the track carries one, the empty string otherwise. -/
def trackTitle (t : Track) : String :=
  match t.info with
  | none => ""
  | some m => m.title

/-- The destination filename computed for the track at the given
1-based index: prefix, separator and title plus the extension of the
decoded filename when a non-empty title is available, otherwise
prefix, separator and the decoded filename. -/
def destFilename (index : Nat) (t : Track) : String :=
  if trackTitle t ≠ "" then
    pad3 index ++ " - " ++ trackTitle t ++ (splitext t.decoded_filename).2
  else
    pad3 index ++ " - " ++ t.decoded_filename

/-- One iteration of the copy loop: the source path joins the source
directory with the raw (encoded) filename, the destination path joins
the destination directory with the computed filename; a missing source
is a notFound outcome, a raising copy is an error outcome carrying the
message, anything else is a success. -/
def copyOne (fs : FS) (sdir ddir : String) (index : Nat) (t : Track) : CopyResult :=
  let src := joinPath sdir t.encoded_filename
  let dst := joinPath ddir (destFilename index t)
  if fs.pathExists src then
    match fs.copyError src dst with
    | none => { reference := t.encoded_filename, outcome := .success }
    | some m => { reference := t.encoded_filename, outcome := .error m }
  else { reference := t.encoded_filename, outcome := .notFound }

/-- The copy loop with its explicit 1-based index threading
(enumerate(tracks, 1)), producing one CopyResult per track in
order. -/
def copyResults (fs : FS) (sdir ddir : String) : Nat → List Track → List CopyResult
  | _, [] => []
  | i, t :: ts => copyOne fs sdir ddir i t :: copyResults fs sdir ddir (i + 1) ts

/-- The failed_files accumulator rebuilt from the results: one pair
per non-success result, the reference together with the fixed
not-found text or the raised message. -/
def failedOf (results : List CopyResult) : List (String × String) :=
  results.filterMap fun r =>
    match r.outcome with
    | .success => none
    | .notFound => some (r.reference, "File not found")
    | .error m => some (r.reference, m)

/-- Model of copy_mp3_files: create the destination directory first
(a raising os.makedirs propagates and is fatal), then run the copy
loop and return the accumulated failures. -/
def copy_mp3_files (fs : FS) (sdir ddir : String) (tracks : List Track) :
    Except String (List (String × String)) :=
  match fs.mkdirError ddir with
  | some m => .error m
  | none => .ok (failedOf (copyResults fs sdir ddir 1 tracks))

/-- Model of os.path.dirname on POSIX: everything before the last
separator, with trailing separators stripped unless the result is all
separators. -/
def dirname (p : String) : String :=
  match lastIndexOf p.data '/' with
  | none => ""
  | some i =>
    let head := p.data.take (i + 1)
    if head.all (· = '/') then String.mk head
    else String.mk ((head.reverse.dropWhile (· = '/')).reverse)

/-- Model of os.path.abspath: prepend the working directory to a
relative path.  (The normalization of redundant separators and dot
segments that abspath also performs is not modelled; no claim depends
on the cosmetic form of the source directory string.) -/
def abspath (cwd p : String) : String :=
  if pyStartsWith p "/" then p else joinPath cwd p

/-- The source directory computed in main: the directory of the
absolute playlist path, defaulting to the current directory when
empty. -/
def sourceDirOf (cwd m3uPath : String) : String :=
  let d := dirname (abspath cwd m3uPath)
  if d = "" then "." else d

/-- The whole environment of one invocation: the argument vector
(including the program name), the working directory, the playlist file
bytes (none when the file cannot be opened), the chunking oracle for
lines surfaced before a decode error, and the filesystem oracles. -/
structure Env where
  argv : List String
  cwd : String
  playlist : Option (List Nat)
  yields : String → List String
  fs : FS

/-- The observable result of a run: the usage message with exit code
1, a fatal uncaught exception with a non-zero exit code, or normal
completion (exit code 0) with the reported failure list. -/
inductive RunResult where
  | usage
  | fatal (msg : String)
  | done (failed : List (String × String))

/-- Model of main: argument-count check, source-directory computation,
playlist extraction (a raising extract_mp3_files propagates and is
fatal), then the copy phase (a raising os.makedirs propagates and is
fatal), then the report and a normal exit. -/
def main (env : Env) : RunResult :=
  if env.argv.length ≠ 3 then .usage
  else
    let m3uPath := (env.argv[1]?).getD ""
    let ddir := (env.argv[2]?).getD ""
    let sdir := sourceDirOf env.cwd m3uPath
    match readPlaylist env.playlist env.yields with
    | none => .fatal "Could not read the file with any known encoding"
    | some tracks =>
      match copy_mp3_files env.fs sdir ddir tracks with
      | .error m => .fatal m
      | .ok failed => .done failed

/-- The process exit code of a run result: 1 for the usage error and
for an uncaught exception, 0 for normal completion. -/
def exitCode : RunResult → Nat
  | .usage => 1
  | .fatal _ => 1
  | .done _ => 0

/-! ## Helper lemmas -/

theorem stringMk_data (s : String) : String.mk s.data = s := by
  cases s; rfl

theorem pyEndsWith_iff (s pat : String) :
    pyEndsWith s pat = true ↔ ∃ pre, s.data = pre ++ pat.data := by
  unfold pyEndsWith
  rw [isPrefixList_iff]
  constructor
  · rintro ⟨suf, h⟩
    refine ⟨suf.reverse, ?_⟩
    have := congrArg List.reverse h
    simpa using this
  · rintro ⟨pre, h⟩
    exact ⟨pre.reverse, by simp [h]⟩

theorem tokens_noEscape (l : List Char) (h : hasEscape l = false) :
    unquoteTokens l = l.map Sum.inl := by
  induction l using unquoteTokens.induct with
  | case1 => rfl
  | case2 c1 c2 rest2 a b hb ha ih =>
    exfalso
    simp [hasEscape, ha, hb] at h
  | case3 c1 c2 rest2 hno ih =>
    have h2 : hasEscape (c1 :: c2 :: rest2) = false := by
      simp only [hasEscape, if_true, ite_true, Bool.or_eq_false_iff] at h
      exact h.2
    rcases ha : hexVal c1 with _ | a
    · simp [unquoteTokens, ha, ih h2]
    · rcases hb : hexVal c2 with _ | b
      · simp [unquoteTokens, ha, hb, ih h2]
      · exact absurd trivial (fun _ => hno a b ha hb)
  | case4 c c1 c2 rest2 hne ih =>
    have h2 : hasEscape (c1 :: c2 :: rest2) = false := by
      simpa [hasEscape, hne] using h
    simp [unquoteTokens, hne, ih h2]
  | case5 c rest hsmall ih =>
    rcases rest with _ | ⟨x, _ | ⟨y, r⟩⟩
    · rfl
    · simp [unquoteTokens]
    · exact absurd rfl (hsmall x y r)

theorem detok_map_inl (l : List Char) : detok [] (l.map Sum.inl) = l := by
  induction l with
  | nil => rfl
  | cons c rest ih => simp [detok, utf8Replace, ih]

theorem takeWhile_digits_append (ds t : List Char)
    (h : ∀ c ∈ ds, isUniDigit c = true) :
    (ds ++ ',' :: t).takeWhile isUniDigit = ds ∧
    (ds ++ ',' :: t).dropWhile isUniDigit = ',' :: t := by
  have hcomma : isUniDigit ',' = false := by decide
  induction ds with
  | nil =>
    constructor <;> simp [List.takeWhile_cons, List.dropWhile_cons, hcomma]
  | cons d ds ih =>
    have hd : isUniDigit d = true := h d (by simp)
    have ih2 := ih (fun c hc => h c (by simp [hc]))
    constructor <;>
      simp [List.takeWhile_cons, List.dropWhile_cons, hd, ih2.1, ih2.2]

theorem matchDurTitle_eq_some (r ds t : List Char)
    (h : r = ds ++ ',' :: t) (h1 : ds ≠ [])
    (h2 : ∀ c ∈ ds, isUniDigit c = true) (h3 : t ≠ []) :
    matchDurTitle r = some (String.mk ds, String.mk t) := by
  obtain ⟨htw, hdw⟩ := takeWhile_digits_append ds t h2
  have hde : ds.isEmpty = false := by
    cases ds
    · exact absurd rfl h1
    · rfl
  have hte : t.isEmpty = false := by
    cases t
    · exact absurd rfl h3
    · rfl
  subst h
  simp only [matchDurTitle, htw, hdw, hde, hte, Bool.false_eq_true,
    if_false, ite_false]

theorem matchDurTitle_eq_none (r : List Char)
    (h : ¬ ∃ ds t, r = ds ++ ',' :: t ∧ ds ≠ [] ∧
      (∀ c ∈ ds, isUniDigit c = true) ∧ t ≠ []) :
    matchDurTitle r = none := by
  rcases hm : matchDurTitle r with _ | p
  · rfl
  · exfalso
    apply h
    simp only [matchDurTitle] at hm
    split at hm
    · exact absurd hm (by simp)
    · rename_i hne
      split at hm
      · rename_i t0 hd
        refine ⟨r.takeWhile isUniDigit, t0, ?_, ?_, ?_, ?_⟩
        · conv_lhs => rw [← List.takeWhile_append_dropWhile isUniDigit r]
          rw [hd]
        · intro he
          rw [he] at hne
          exact hne rfl
        · exact fun c hc => List.mem_takeWhile_imp hc
        · intro he
          rw [he] at hm
          simp at hm
      · exact absurd hm (by simp)

theorem processLine_extinf (st : ParseState) (line : String)
    (hstrip : pystrip line = line)
    (hpre : pyStartsWith line "#EXTINF:" = true) :
    processLine st line = { st with current_extinf := some (parseExtinf line) } := by
  simp only [processLine, hstrip]
  rw [if_neg, if_pos hpre]
  rintro (rfl | rfl)
  · exact absurd hpre (by decide)
  · exact absurd hpre (by decide)

theorem processLine_track (st : ParseState) (line : String)
    (hstrip : pystrip line = line)
    (hnm : pyStartsWith line "#EXTINF:" = false)
    (hext : pyEndsWith line ".mp3" = true ∨ pyEndsWith line ".wav" = true) :
    processLine st line =
      { tracks := st.tracks ++
          [{ encoded_filename := line, decoded_filename := unquote line,
             info := st.current_extinf }],
        current_extinf := none } := by
  simp only [processLine, hstrip]
  rw [if_neg, if_neg (by simp [hnm]), if_pos (by simpa using hext)]
  rintro (rfl | rfl) <;> rcases hext with hext | hext <;>
    exact absurd hext (by decide)

theorem copyOne_reference (fs : FS) (sdir ddir : String) (i : Nat) (t : Track) :
    (copyOne fs sdir ddir i t).reference = t.encoded_filename := by
  simp only [copyOne]
  split
  · split <;> rfl
  · rfl

theorem copyResults_length (fs : FS) (sdir ddir : String) :
    ∀ (ts : List Track) (n : Nat),
      (copyResults fs sdir ddir n ts).length = ts.length := by
  intro ts
  induction ts with
  | nil => intro n; rfl
  | cons t ts ih => intro n; simp [copyResults, ih]

theorem copyResults_getElem? (fs : FS) (sdir ddir : String) :
    ∀ (ts : List Track) (n i : Nat),
      (copyResults fs sdir ddir n ts)[i]? =
        (ts[i]?).map (fun t => copyOne fs sdir ddir (n + i) t) := by
  intro ts
  induction ts with
  | nil => intro n i; simp [copyResults]
  | cons t ts ih =>
    intro n i
    cases i with
    | zero => simp [copyResults]
    | succ j =>
      simp only [copyResults, List.getElem?_cons_succ]
      rw [ih (n + 1) j, show n + 1 + j = n + (j + 1) from by omega]

theorem copyOne_notFound (fs : FS) (sdir ddir : String) (i : Nat) (t : Track)
    (hp : fs.pathExists (joinPath sdir t.encoded_filename) = false) :
    copyOne fs sdir ddir i t =
      { reference := t.encoded_filename, outcome := .notFound } := by
  simp [copyOne, hp]

theorem copyOne_error (fs : FS) (sdir ddir : String) (i : Nat) (t : Track)
    (m : String)
    (hp : fs.pathExists (joinPath sdir t.encoded_filename) = true)
    (hc : fs.copyError (joinPath sdir t.encoded_filename)
      (joinPath ddir (destFilename i t)) = some m) :
    copyOne fs sdir ddir i t =
      { reference := t.encoded_filename, outcome := .error m } := by
  simp [copyOne, hp, hc]

theorem copyOne_success (fs : FS) (sdir ddir : String) (i : Nat) (t : Track)
    (hp : fs.pathExists (joinPath sdir t.encoded_filename) = true)
    (hc : fs.copyError (joinPath sdir t.encoded_filename)
      (joinPath ddir (destFilename i t)) = none) :
    copyOne fs sdir ddir i t =
      { reference := t.encoded_filename, outcome := .success } := by
  simp [copyOne, hp, hc]

theorem mem_failedOf_notFound (results : List CopyResult) (r : CopyResult)
    (hr : r ∈ results) (h : r.outcome = .notFound) :
    (r.reference, "File not found") ∈ failedOf results :=
  List.mem_filterMap.mpr ⟨r, hr, by rw [h]⟩

theorem mem_failedOf_error (results : List CopyResult) (r : CopyResult)
    (m : String) (hr : r ∈ results) (h : r.outcome = .error m) :
    (r.reference, m) ∈ failedOf results :=
  List.mem_filterMap.mpr ⟨r, hr, by rw [h]⟩

/-! ## Claims -/

/-- C7: percent-decoding as applied to track lines is the identity on
strings containing no percent escape (hence idempotent on decoded
text), passes every character that does not open an escape through
unchanged (in particular the plus sign), and maps each two-hex-digit
escape to the corresponding byte of the escaped byte stream. -/
theorem C7_unquote_decoding :
    (∀ s : String, hasEscape s.data = false → unquote s = s) ∧
    (∀ (c : Char) (rest : List Char), c ≠ '%' →
      unquoteTokens (c :: rest) = Sum.inl c :: unquoteTokens rest) ∧
    (∀ (c1 c2 : Char) (rest : List Char) (a b : Nat),
      hexVal c1 = some a → hexVal c2 = some b →
      unquoteTokens ('%' :: c1 :: c2 :: rest) =
        Sum.inr (16 * a + b) :: unquoteTokens rest) := by
  refine ⟨?_, ?_, ?_⟩
  · intro s h
    unfold unquote
    split
    · rw [tokens_noEscape s.data h, detok_map_inl, stringMk_data]
    · rfl
  · intro c rest hne
    rcases rest with _ | ⟨x, _ | ⟨y, r⟩⟩
    · rfl
    · rfl
    · simp [unquoteTokens, hne]
  · intro c1 c2 rest a b ha hb
    simp [unquoteTokens, ha, hb]

/-- Witness for C7 at concrete inputs: a plus sign and escape-free text
pass through unquote unchanged, and the escape percent-two-zero maps to
byte 32. -/
theorem C7_unquote_decoding_witness :
    unquote "track+1 (final).mp3" = "track+1 (final).mp3" ∧
    unquoteTokens ['+', 'x'] = [Sum.inl '+', Sum.inl 'x'] ∧
    unquoteTokens ('%' :: '2' :: '0' :: "1.mp3".data) =
      Sum.inr 32 :: unquoteTokens "1.mp3".data := by
  refine ⟨C7_unquote_decoding.1 _ (by decide), ?_, ?_⟩
  · have := C7_unquote_decoding.2.1 '+' ['x'] (by decide)
    simpa using this
  · have := C7_unquote_decoding.2.2 '2' '0' "1.mp3".data 2 0 (by decide) (by decide)
    simpa using this

/-- C1: the encoding fallback attempts are NOT isolated, because the
tracks accumulator is initialized once, outside the encoding loop.  An
attempt that decodes a track line and then raises a decode error (the
text stream yields the lines of chunks read before the failing one)
leaves its records in the accumulator, and the next, successful
attempt re-reads the file from the start and appends every track
again: the first record is duplicated.  A fully isolated run of the
same successful attempt yields each track once. -/
theorem C1_failed_attempt_leaks :
    extract_mp3_files [.failAfter ["a.mp3"], .ok ["a.mp3", "b.mp3"]] =
      some [{ encoded_filename := "a.mp3", decoded_filename := "a.mp3", info := none },
        { encoded_filename := "a.mp3", decoded_filename := "a.mp3", info := none },
        { encoded_filename := "b.mp3", decoded_filename := "b.mp3", info := none }] ∧
    extract_mp3_files [.ok ["a.mp3", "b.mp3"]] =
      some [{ encoded_filename := "a.mp3", decoded_filename := "a.mp3", info := none },
        { encoded_filename := "b.mp3", decoded_filename := "b.mp3", info := none }] := by
  constructor <;> rfl

/-- C10: track-line recognition is case sensitive on the extension.
Any stripped line that is non-empty, is not the header, does not start
with the EXTINF prefix and does not end in the exact lowercase .mp3 or
.wav leaves the parse state completely unchanged: no track record is
created (so the copier neither copies nor reports it) and the pending
metadata is untouched.  In particular lines ending in .MP3 or .Wav are
silently ignored. -/
theorem C10_extension_case_sensitive :
    (∀ (st : ParseState) (line : String), pystrip line = line →
      line ≠ "" → line ≠ "#EXTM3U" →
      pyStartsWith line "#EXTINF:" = false →
      pyEndsWith line ".mp3" = false → pyEndsWith line ".wav" = false →
      processLine st line = st) ∧
    pyEndsWith "Track.MP3" ".mp3" = false ∧
    pyEndsWith "Track.Wav" ".wav" = false ∧
    (∀ st : ParseState,
      processLine st "Track.MP3" = st ∧ processLine st "Track.Wav" = st) := by
  have main : ∀ (st : ParseState) (line : String), pystrip line = line →
      line ≠ "" → line ≠ "#EXTM3U" →
      pyStartsWith line "#EXTINF:" = false →
      pyEndsWith line ".mp3" = false → pyEndsWith line ".wav" = false →
      processLine st line = st := by
    intro st line hstrip h1 h2 h3 h4 h5
    simp only [processLine, hstrip]
    rw [if_neg (by tauto), if_neg (by simp [h3]), if_neg (by simp [h4, h5])]
  refine ⟨main, by decide, by decide, fun st => ⟨?_, ?_⟩⟩
  · exact main st "Track.MP3" (by decide) (by decide) (by decide) (by decide)
      (by decide) (by decide)
  · exact main st "Track.Wav" (by decide) (by decide) (by decide) (by decide)
      (by decide) (by decide)

/-- Witness for C10 at a concrete state: a line ending in uppercase
MP3 adds no track record and leaves pending metadata alone. -/
theorem C10_extension_case_sensitive_witness :
    processLine { tracks := [], current_extinf := none } "Track.MP3" =
      { tracks := [], current_extinf := none } :=
  C10_extension_case_sensitive.1 _ "Track.MP3" (by decide) (by decide)
    (by decide) (by decide) (by decide) (by decide)

/-- C5: a line starting with the EXTINF prefix updates only the
pending metadata.  When the text after the prefix has the form of a
non-empty run of decimal digits (any Unicode Nd digit, the class the
regex digit escape matches on str patterns), a comma and non-empty
remaining text, the pending metadata stores that digit string (the
decimal notation of the duration) and the remaining text as the
title; in every other case the whole text after the prefix becomes
the title and no duration is stored. -/
theorem C5_extinf_line_parsing :
    (∀ (st : ParseState) (line : String), pystrip line = line →
      pyStartsWith line "#EXTINF:" = true →
      (processLine st line).tracks = st.tracks ∧
      (processLine st line).current_extinf = some (parseExtinf line)) ∧
    (∀ (line : String) (ds t : List Char),
      line.data.drop 8 = ds ++ ',' :: t → ds ≠ [] →
      (∀ c ∈ ds, isUniDigit c = true) → t ≠ [] →
      parseExtinf line =
        { duration := some (String.mk ds), title := String.mk t }) ∧
    (∀ line : String,
      (¬ ∃ ds t, line.data.drop 8 = ds ++ ',' :: t ∧ ds ≠ [] ∧
        (∀ c ∈ ds, isUniDigit c = true) ∧ t ≠ []) →
      parseExtinf line =
        { duration := none, title := String.mk (line.data.drop 8) }) := by
  refine ⟨?_, ?_, ?_⟩
  · intro st line hstrip hpre
    rw [processLine_extinf st line hstrip hpre]
    exact ⟨rfl, rfl⟩
  · intro line ds t h h1 h2 h3
    simp only [parseExtinf, matchDurTitle_eq_some (line.data.drop 8) ds t h h1 h2 h3]
  · intro line h
    simp only [parseExtinf, matchDurTitle_eq_none (line.data.drop 8) h]

/-- Witness for C5: the spec example line parses into duration 180 and
title My Song, a duration written with Arabic-Indic digits (Unicode
Nd) also parses, a malformed remainder falls back to a bare title, and
the metadata line leaves the tracks of a concrete state untouched. -/
theorem C5_extinf_line_parsing_witness :
    parseExtinf "#EXTINF:180,My Song" =
      { duration := some "180", title := "My Song" } ∧
    parseExtinf "#EXTINF:١٨٠,x" = { duration := some "١٨٠", title := "x" } ∧
    parseExtinf "#EXTINF:oops" = { duration := none, title := "oops" } ∧
    (processLine { tracks := [], current_extinf := none }
        "#EXTINF:180,My Song").tracks = [] := by
  refine ⟨?_, ?_, ?_, ?_⟩
  · have := C5_extinf_line_parsing.2.1 "#EXTINF:180,My Song"
      "180".data "My Song".data (by decide) (by decide)
      (by decide) (by decide)
    simpa using this
  · have := C5_extinf_line_parsing.2.1 "#EXTINF:١٨٠,x"
      "١٨٠".data "x".data (by decide) (by decide)
      (by decide) (by decide)
    simpa using this
  · have := C5_extinf_line_parsing.2.2 "#EXTINF:oops" ?_
    · simpa using this
    · rintro ⟨ds, t, h, -, -, -⟩
      have hm : (',' : Char) ∈ "#EXTINF:oops".data.drop 8 := by
        rw [h]
        exact List.mem_append_right _ (List.mem_cons_self _ _)
      exact absurd hm (by decide)
  · exact (C5_extinf_line_parsing.1 _ "#EXTINF:180,My Song"
      (by decide) (by decide)).1

/-- C6: pending-metadata threading.  Two consecutive metadata lines
keep only the later one (the record the following track line receives
is parsed from the second metadata line); a track line consumes the
pending metadata and clears it, so an immediately following second
track line gets no metadata; and a track line reached with no pending
metadata produces a record with no metadata. -/
theorem C6_pending_metadata_threading :
    (∀ (st : ParseState) (m1 m2 tr : String),
      pystrip m1 = m1 → pyStartsWith m1 "#EXTINF:" = true →
      pystrip m2 = m2 → pyStartsWith m2 "#EXTINF:" = true →
      pystrip tr = tr → pyStartsWith tr "#EXTINF:" = false →
      (pyEndsWith tr ".mp3" = true ∨ pyEndsWith tr ".wav" = true) →
      runLines st [m1, m2, tr] =
        { tracks := st.tracks ++
            [{ encoded_filename := tr, decoded_filename := unquote tr,
               info := some (parseExtinf m2) }],
          current_extinf := none }) ∧
    (∀ (st : ParseState) (m tr1 tr2 : String),
      pystrip m = m → pyStartsWith m "#EXTINF:" = true →
      pystrip tr1 = tr1 → pyStartsWith tr1 "#EXTINF:" = false →
      (pyEndsWith tr1 ".mp3" = true ∨ pyEndsWith tr1 ".wav" = true) →
      pystrip tr2 = tr2 → pyStartsWith tr2 "#EXTINF:" = false →
      (pyEndsWith tr2 ".mp3" = true ∨ pyEndsWith tr2 ".wav" = true) →
      runLines st [m, tr1, tr2] =
        { tracks := st.tracks ++
            [{ encoded_filename := tr1, decoded_filename := unquote tr1,
               info := some (parseExtinf m) },
             { encoded_filename := tr2, decoded_filename := unquote tr2,
               info := none }],
          current_extinf := none }) ∧
    (∀ (st : ParseState) (tr : String), st.current_extinf = none →
      pystrip tr = tr → pyStartsWith tr "#EXTINF:" = false →
      (pyEndsWith tr ".mp3" = true ∨ pyEndsWith tr ".wav" = true) →
      processLine st tr =
        { tracks := st.tracks ++
            [{ encoded_filename := tr, decoded_filename := unquote tr,
               info := none }],
          current_extinf := none }) := by
  refine ⟨?_, ?_, ?_⟩
  · intro st m1 m2 tr hs1 hp1 hs2 hp2 hst hnp hext
    show processLine (processLine (processLine st m1) m2) tr = _
    rw [processLine_extinf st m1 hs1 hp1,
      processLine_extinf _ m2 hs2 hp2,
      processLine_track _ tr hst hnp hext]
  · intro st m tr1 tr2 hsm hpm hs1 hn1 he1 hs2 hn2 he2
    show processLine (processLine (processLine st m) tr1) tr2 = _
    rw [processLine_extinf st m hsm hpm,
      processLine_track _ tr1 hs1 hn1 he1,
      processLine_track _ tr2 hs2 hn2 he2]
    simp
  · intro st tr hnone hst hnp hext
    rw [processLine_track st tr hst hnp hext, hnone]

/-- Witness for C6 at concrete lines: of two consecutive EXTINF lines
only the second attaches to the following track, the next track
carries no metadata, and a track with no pending metadata gets
none. -/
theorem C6_pending_metadata_threading_witness :
    runLines { tracks := [], current_extinf := none }
        ["#EXTINF:1,First", "#EXTINF:2,Second", "a.mp3"] =
      { tracks := [{ encoded_filename := "a.mp3", decoded_filename := "a.mp3", info := some { duration := some "2", title := "Second" } }],
        current_extinf := none } ∧
    runLines { tracks := [], current_extinf := none }
        ["#EXTINF:2,Second", "a.mp3", "b.wav"] =
      { tracks := [{ encoded_filename := "a.mp3", decoded_filename := "a.mp3", info := some { duration := some "2", title := "Second" } },
          { encoded_filename := "b.wav", decoded_filename := "b.wav", info := none }],
        current_extinf := none } ∧
    processLine { tracks := [], current_extinf := none } "c.mp3" =
      { tracks := [{ encoded_filename := "c.mp3", decoded_filename := "c.mp3", info := none }],
        current_extinf := none } := by
  refine ⟨?_, ?_, ?_⟩
  · have := C6_pending_metadata_threading.1
      { tracks := [], current_extinf := none }
      "#EXTINF:1,First" "#EXTINF:2,Second" "a.mp3"
      (by decide) (by decide) (by decide) (by decide) (by decide) (by decide)
      (Or.inl (by decide))
    rw [this]
    decide
  · have := C6_pending_metadata_threading.2.1
      { tracks := [], current_extinf := none }
      "#EXTINF:2,Second" "a.mp3" "b.wav"
      (by decide) (by decide) (by decide) (by decide) (Or.inl (by decide))
      (by decide) (by decide) (Or.inr (by decide))
    rw [this]
    decide
  · have := C6_pending_metadata_threading.2.2
      { tracks := [], current_extinf := none } "c.mp3" rfl
      (by decide) (by decide) (Or.inl (by decide))
    rw [this]
    decide

/-- C4: the destination filename is the zero-padded three-digit index,
a spaced dash, and either the metadata title followed by the extension
of the decoded filename (when a non-empty title is present) or the
whole decoded filename; the padding gives 001 for index 1 and indices
of four or more digits simply print unpadded; and the spec example
EXTINF 180 comma My Song followed by track percent-two-zero-one dot
mp3 produces the destination filename 001 - My Song.mp3. -/
theorem C4_destination_filename :
    (∀ (i : Nat) (t : Track) (m : Extinf), t.info = some m → m.title ≠ "" →
      destFilename i t =
        pad3 i ++ " - " ++ m.title ++ (splitext t.decoded_filename).2) ∧
    (∀ (i : Nat) (t : Track), trackTitle t = "" →
      destFilename i t = pad3 i ++ " - " ++ t.decoded_filename) ∧
    pad3 1 = "001" ∧
    (∀ n : Nat, 1000 ≤ n → pad3 n = Nat.repr n) ∧
    (runLines { tracks := [], current_extinf := none }
        ["#EXTINF:180,My Song", "track%201.mp3"]).tracks =
      [{ encoded_filename := "track%201.mp3", decoded_filename := "track 1.mp3", info := some { duration := some "180", title := "My Song" } }] ∧
    destFilename 1 { encoded_filename := "track%201.mp3", decoded_filename := "track 1.mp3", info := some { duration := some "180", title := "My Song" } } =
      "001 - My Song.mp3" := by
  refine ⟨?_, ?_, rfl, ?_, by decide, by decide⟩
  · intro i t m hm ht
    simp [destFilename, trackTitle, hm, ht]
  · intro i t h
    simp [destFilename, h]
  · intro n h
    rw [pad3, if_neg (by omega), if_neg (by omega)]

/-- Witness for C4 at concrete inputs: a record with title My Song at
index 1, a record without metadata at index 7, and the unpadded
four-digit index 1234. -/
theorem C4_destination_filename_witness :
    destFilename 1 { encoded_filename := "track%201.mp3", decoded_filename := "track 1.mp3", info := some { duration := some "180", title := "My Song" } } =
      pad3 1 ++ " - " ++ "My Song" ++ (splitext "track 1.mp3").2 ∧
    destFilename 7 { encoded_filename := "cafe.mp3", decoded_filename := "cafe.mp3", info := none } =
      pad3 7 ++ " - " ++ "cafe.mp3" ∧
    pad3 1234 = Nat.repr 1234 := by
  refine ⟨?_, ?_, C4_destination_filename.2.2.2.1 1234 (by omega)⟩
  · exact C4_destination_filename.1 1
      { encoded_filename := "track%201.mp3", decoded_filename := "track 1.mp3", info := some { duration := some "180", title := "My Song" } }
      { duration := some "180", title := "My Song" } rfl (by decide)
  · exact C4_destination_filename.2.1 7
      { encoded_filename := "cafe.mp3", decoded_filename := "cafe.mp3", info := none } (by decide)

/-- C2: the copy loop produces exactly one CopyResult per parsed
track record, index-aligned and order-preserving: the results list has
the same length as the tracks list, and the result at each index is
the outcome of copying exactly the track at that index (1-based
enumeration), carrying that track's raw reference. -/
theorem C2_one_result_per_track (fs : FS) (sdir ddir : String)
    (tracks : List Track) :
    (copyResults fs sdir ddir 1 tracks).length = tracks.length ∧
    (∀ (i : Nat) (t : Track), tracks[i]? = some t →
      (copyResults fs sdir ddir 1 tracks)[i]? =
        some (copyOne fs sdir ddir (1 + i) t) ∧
      ((copyResults fs sdir ddir 1 tracks)[i]?).map CopyResult.reference =
        some t.encoded_filename) := by
  refine ⟨copyResults_length fs sdir ddir tracks 1, ?_⟩
  intro i t ht
  rw [copyResults_getElem? fs sdir ddir tracks 1 i, ht]
  exact ⟨rfl, by simp [copyOne_reference]⟩

/-- Witness for C2 on a concrete two-track list and a filesystem where
the first file exists and the second does not. -/
theorem C2_one_result_per_track_witness :
    (copyResults
        { pathExists := fun p => p = "/src/a.mp3",
          copyError := fun _ _ => none, mkdirError := fun _ => none }
        "/src" "/dst" 1
        [{ encoded_filename := "a.mp3", decoded_filename := "a.mp3", info := none },
          { encoded_filename := "b.mp3", decoded_filename := "b.mp3", info := none }]).length = 2 ∧
    ((copyResults
        { pathExists := fun p => p = "/src/a.mp3",
          copyError := fun _ _ => none, mkdirError := fun _ => none }
        "/src" "/dst" 1
        [{ encoded_filename := "a.mp3", decoded_filename := "a.mp3", info := none },
          { encoded_filename := "b.mp3", decoded_filename := "b.mp3", info := none }])[1]?).map
      CopyResult.reference = some "b.mp3" := by
  refine ⟨(C2_one_result_per_track _ _ _ _).1, ?_⟩
  exact ((C2_one_result_per_track _ "/src" "/dst" _).2 1
    { encoded_filename := "b.mp3", decoded_filename := "b.mp3", info := none } rfl).2

/-- C8: the existence check and the copy use the source directory
joined with the raw (encoded) reference text, never with the decoded
text: the notFound outcome is exactly the non-existence of the
raw-joined path, the whole result depends on the filesystem only
through that raw-joined source path and the destination path, and any
change of the decoded text leaving the destination filename unchanged
leaves the result unchanged. -/
theorem C8_raw_reference_paths :
    (∀ (fs : FS) (sdir ddir : String) (i : Nat) (t : Track),
      (copyOne fs sdir ddir i t).outcome = Outcome.notFound ↔
        fs.pathExists (joinPath sdir t.encoded_filename) = false) ∧
    (∀ (fs fs' : FS) (sdir ddir : String) (i : Nat) (t : Track),
      fs.pathExists (joinPath sdir t.encoded_filename) =
        fs'.pathExists (joinPath sdir t.encoded_filename) →
      fs.copyError (joinPath sdir t.encoded_filename)
          (joinPath ddir (destFilename i t)) =
        fs'.copyError (joinPath sdir t.encoded_filename)
          (joinPath ddir (destFilename i t)) →
      copyOne fs sdir ddir i t = copyOne fs' sdir ddir i t) ∧
    (∀ (fs : FS) (sdir ddir : String) (i : Nat) (t : Track) (d' : String),
      destFilename i { t with decoded_filename := d' } = destFilename i t →
      copyOne fs sdir ddir i { t with decoded_filename := d' } =
        copyOne fs sdir ddir i t) := by
  refine ⟨?_, ?_, ?_⟩
  · intro fs sdir ddir i t
    rcases hp : fs.pathExists (joinPath sdir t.encoded_filename) with _ | _
    · rw [copyOne_notFound fs sdir ddir i t hp]
      simp
    · rcases hc : fs.copyError (joinPath sdir t.encoded_filename)
        (joinPath ddir (destFilename i t)) with _ | m
      · rw [copyOne_success fs sdir ddir i t hp hc]
        simp
      · rw [copyOne_error fs sdir ddir i t m hp hc]
        simp
  · intro fs fs' sdir ddir i t h1 h2
    simp only [copyOne, h1, h2]
  · intro fs sdir ddir i t d' h
    simp only [copyOne, h]

/-- Witness for C8: with a filesystem where no path exists the result
of a concrete track is notFound, and two filesystems that agree on the
raw-joined source path (but differ elsewhere) give the same result. -/
theorem C8_raw_reference_paths_witness :
    (copyOne { pathExists := fun _ => false, copyError := fun _ _ => none, mkdirError := fun _ => none }
        "/s" "/d" 1
        { encoded_filename := "a%20b.mp3", decoded_filename := "a b.mp3", info := none }).outcome =
      Outcome.notFound ∧
    copyOne { pathExists := fun p => p = "/s/a%20b.mp3", copyError := fun _ _ => none, mkdirError := fun _ => none }
        "/s" "/d" 1
        { encoded_filename := "a%20b.mp3", decoded_filename := "a b.mp3", info := none } =
      copyOne { pathExists := fun p => p = "/s/a%20b.mp3" ∨ p = "/s/a b.mp3", copyError := fun _ _ => none, mkdirError := fun _ => none }
        "/s" "/d" 1
        { encoded_filename := "a%20b.mp3", decoded_filename := "a b.mp3", info := none } := by
  constructor
  · exact (C8_raw_reference_paths.1
      { pathExists := fun _ => false, copyError := fun _ _ => none, mkdirError := fun _ => none }
      "/s" "/d" 1
      { encoded_filename := "a%20b.mp3", decoded_filename := "a b.mp3", info := none }).mpr rfl
  · exact C8_raw_reference_paths.2.1
      { pathExists := fun p => p = "/s/a%20b.mp3", copyError := fun _ _ => none, mkdirError := fun _ => none }
      { pathExists := fun p => p = "/s/a%20b.mp3" ∨ p = "/s/a b.mp3", copyError := fun _ _ => none, mkdirError := fun _ => none }
      "/s" "/d" 1
      { encoded_filename := "a%20b.mp3", decoded_filename := "a b.mp3", info := none }
      (by decide) rfl

/-- C9: because latin1 (the third candidate) decodes every byte
sequence, the encoding loop can never run out of candidates on a
readable file: the reader always succeeds no matter what the bytes
are, the attempts after latin1 are irrelevant (the run equals the run
on the first three candidates alone), latin1 decoding is total, and
the terminal could-not-read error occurs exactly when every attempt
raises a non-decode exception before yielding anything, as happens
when the playlist file cannot be opened at all. -/
theorem C9_latin1_total_fallback :
    (∀ (bytes : List Nat) (yields : String → List String),
      (extract_mp3_files (encodings.map (attemptFor bytes yields))).isSome = true) ∧
    (∀ (bytes : List Nat) (yields : String → List String),
      extract_mp3_files (encodings.map (attemptFor bytes yields)) =
        extract_mp3_files ((encodings.map (attemptFor bytes yields)).take 3)) ∧
    (∀ bytes : List Nat, decodeFull "latin1" bytes = some (latin1Decode bytes)) ∧
    (∀ yields : String → List String, readPlaylist none yields = none) := by
  have h3 : ∀ (bytes : List Nat) (yields : String → List String),
      attemptFor bytes yields "latin1" = .ok (splitNL (latin1Decode bytes)) := by
    intro bytes yields
    rfl
  refine ⟨?_, ?_, fun bytes => rfl, fun yields => rfl⟩
  · intro bytes yields
    show (extractGo { tracks := [], current_extinf := none }
      [attemptFor bytes yields "utf-8", attemptFor bytes yields "Windows-1252",
        attemptFor bytes yields "latin1", attemptFor bytes yields "cp1252",
        attemptFor bytes yields "iso-8859-1", attemptFor bytes yields "ascii"]).isSome = true
    rcases h1 : attemptFor bytes yields "utf-8" with ls1 | ls1 <;>
      rcases h2 : attemptFor bytes yields "Windows-1252" with ls2 | ls2 <;>
        simp [extractGo, h3 bytes yields]
  · intro bytes yields
    show extractGo { tracks := [], current_extinf := none }
        [attemptFor bytes yields "utf-8", attemptFor bytes yields "Windows-1252",
          attemptFor bytes yields "latin1", attemptFor bytes yields "cp1252",
          attemptFor bytes yields "iso-8859-1", attemptFor bytes yields "ascii"] =
      extractGo { tracks := [], current_extinf := none }
        [attemptFor bytes yields "utf-8", attemptFor bytes yields "Windows-1252",
          attemptFor bytes yields "latin1"]
    rcases h1 : attemptFor bytes yields "utf-8" with ls1 | ls1 <;>
      rcases h2 : attemptFor bytes yields "Windows-1252" with ls2 | ls2 <;>
        simp [extractGo, h3 bytes yields]

/-- C3: per-file failures are never fatal.  In a well-formed
invocation whose playlist is readable and whose destination directory
is created successfully, the process exits with code 0 and reports the
failure list; every track whose raw-joined source path does not exist
gets a notFound outcome and appears in the failure list with the
not-found reason, every track whose copy raises gets an error outcome
and appears in the failure list with the raised message, and every
other track is copied (success outcome).  Conversely a well-formed
invocation exits non-zero only when the playlist read fails entirely
or the destination directory cannot be created. -/
theorem C3_per_file_failures_nonfatal :
    (∀ (env : Env) (tracks : List Track) (sdir ddir : String),
      env.argv.length = 3 →
      sdir = sourceDirOf env.cwd ((env.argv[1]?).getD "") →
      ddir = (env.argv[2]?).getD "" →
      readPlaylist env.playlist env.yields = some tracks →
      env.fs.mkdirError ddir = none →
      exitCode (main env) = 0 ∧
      main env = RunResult.done (failedOf (copyResults env.fs sdir ddir 1 tracks)) ∧
      (∀ (i : Nat) (t : Track), tracks[i]? = some t →
        (env.fs.pathExists (joinPath sdir t.encoded_filename) = false →
          (copyOne env.fs sdir ddir (1 + i) t).outcome = Outcome.notFound ∧
          (t.encoded_filename, "File not found") ∈
            failedOf (copyResults env.fs sdir ddir 1 tracks)) ∧
        (∀ m : String,
          env.fs.pathExists (joinPath sdir t.encoded_filename) = true →
          env.fs.copyError (joinPath sdir t.encoded_filename)
            (joinPath ddir (destFilename (1 + i) t)) = some m →
          (copyOne env.fs sdir ddir (1 + i) t).outcome = Outcome.error m ∧
          (t.encoded_filename, m) ∈
            failedOf (copyResults env.fs sdir ddir 1 tracks)) ∧
        (env.fs.pathExists (joinPath sdir t.encoded_filename) = true →
          env.fs.copyError (joinPath sdir t.encoded_filename)
            (joinPath ddir (destFilename (1 + i) t)) = none →
          (copyOne env.fs sdir ddir (1 + i) t).outcome = Outcome.success))) ∧
    (∀ env : Env, env.argv.length = 3 → exitCode (main env) ≠ 0 →
      readPlaylist env.playlist env.yields = none ∨
      ∃ m, env.fs.mkdirError ((env.argv[2]?).getD "") = some m) := by
  constructor
  · intro env tracks sdir ddir h3 hs hd hread hmk
    subst hs
    subst hd
    have hmain : main env = RunResult.done (failedOf (copyResults env.fs
        (sourceDirOf env.cwd ((env.argv[1]?).getD ""))
        ((env.argv[2]?).getD "") 1 tracks)) := by
      simp only [main, if_neg (show ¬ env.argv.length ≠ 3 from fun hc => hc h3),
        hread, copy_mp3_files, hmk]
    refine ⟨by rw [hmain]; rfl, hmain, ?_⟩
    intro i t ht
    have hmem : copyOne env.fs (sourceDirOf env.cwd ((env.argv[1]?).getD ""))
        ((env.argv[2]?).getD "") (1 + i) t ∈
        copyResults env.fs (sourceDirOf env.cwd ((env.argv[1]?).getD ""))
          ((env.argv[2]?).getD "") 1 tracks := by
      have hidx : (copyResults env.fs (sourceDirOf env.cwd ((env.argv[1]?).getD ""))
          ((env.argv[2]?).getD "") 1 tracks)[i]? =
          some (copyOne env.fs (sourceDirOf env.cwd ((env.argv[1]?).getD ""))
            ((env.argv[2]?).getD "") (1 + i) t) := by
        rw [copyResults_getElem?, ht]
        rfl
      exact List.getElem?_mem hidx
    refine ⟨?_, ?_, ?_⟩
    · intro hp
      rw [copyOne_notFound _ _ _ _ _ hp]
      refine ⟨rfl, ?_⟩
      have := mem_failedOf_notFound _ _ hmem (by rw [copyOne_notFound _ _ _ _ _ hp])
      rwa [copyOne_reference] at this
    · intro m hp hc
      rw [copyOne_error _ _ _ _ _ m hp hc]
      refine ⟨rfl, ?_⟩
      have := mem_failedOf_error _ _ m hmem (by rw [copyOne_error _ _ _ _ _ m hp hc])
      rwa [copyOne_reference] at this
    · intro hp hc
      rw [copyOne_success _ _ _ _ _ hp hc]
  · intro env h3 hne
    rcases hread : readPlaylist env.playlist env.yields with _ | tracks
    · exact Or.inl rfl
    · rcases hmk : env.fs.mkdirError ((env.argv[2]?).getD "") with _ | m
      · exfalso
        apply hne
        have hmain : main env = RunResult.done (failedOf (copyResults env.fs
            (sourceDirOf env.cwd ((env.argv[1]?).getD ""))
            ((env.argv[2]?).getD "") 1 tracks)) := by
          simp only [main, if_neg (show ¬ env.argv.length ≠ 3 from fun hc => hc h3),
            hread, copy_mp3_files, hmk]
        rw [hmain]
        rfl
      · exact Or.inr ⟨m, by simp [hmk]⟩

/-- Witness for C3: a run over a one-line playlist naming a file that
does not exist exits with code 0 and reports that file as not
found. -/
theorem C3_per_file_failures_nonfatal_witness :
    exitCode (main { argv := ["m3ucopy.py", "/pl/list.m3u", "/dst"], cwd := "/", playlist := some [109, 105, 115, 115, 105, 110, 103, 46, 109, 112, 51, 10], yields := fun _ => [], fs := { pathExists := fun _ => false, copyError := fun _ _ => none, mkdirError := fun _ => none } }) = 0 ∧
    ("missing.mp3", "File not found") ∈ failedOf (copyResults { pathExists := fun _ => false, copyError := fun _ _ => none, mkdirError := fun _ => none } "/pl" "/dst" 1 [{ encoded_filename := "missing.mp3", decoded_filename := "missing.mp3", info := none }]) := by
  have h := C3_per_file_failures_nonfatal.1
    { argv := ["m3ucopy.py", "/pl/list.m3u", "/dst"], cwd := "/", playlist := some [109, 105, 115, 115, 105, 110, 103, 46, 109, 112, 51, 10], yields := fun _ => [], fs := { pathExists := fun _ => false, copyError := fun _ _ => none, mkdirError := fun _ => none } }
    [{ encoded_filename := "missing.mp3", decoded_filename := "missing.mp3", info := none }]
    "/pl" "/dst" rfl (by decide) rfl (by decide) rfl
  exact ⟨h.1, ((h.2.2 0
    { encoded_filename := "missing.mp3", decoded_filename := "missing.mp3", info := none }
    rfl).1 rfl).2⟩

end M3UCopy
